import Mathlib

/-
  Verification development for the stormpath.js browser client.

  The JavaScript sources are shallowly embedded: JS runtime values become the
  inductive type JSVal, property access and the Array map and reduce methods
  become functions into Except (a thrown exception is an Except.error), and
  the browser ambient state (location href and the cookie jar) becomes an
  explicit Browser structure threaded through the functions that touch it.
  The cookie jar is modelled at the get and set contract granularity that the
  specification declares for the Cookie Store collaborator.
-/

/-- A JavaScript runtime value, as needed by the client code: undefined, null,
booleans, (integer) numbers, strings, arrays and plain objects. Objects are
ordered association lists of fields. -/
inductive JSVal where
  | undefined
  | null
  | bool (b : Bool)
  | num (n : Int)
  | str (s : String)
  | arr (elems : List JSVal)
  | obj (fields : List (String × JSVal))

/-- Exceptions thrown by the JS runtime: TypeError for bad member access or
calling a missing method, URIError from decodeURIComponent, SyntaxError from
JSON.parse, and the DOMException InvalidCharacterError from atob. -/
inductive JsErr where
  | typeError
  | uriError
  | syntaxError
  | domError
deriving DecidableEq

/-- The named terminal error conditions of the client (the message constants
live in the strings module of the repository, which only matters by name). -/
inductive StormError where
  | JWT_NOT_FOUND
  | NOT_A_JWT
  | MALFORMED_JWT_CLAIMS
  | SESSION_EXPIRED
  | NO_AUTH_TOKEN_HEADER
deriving DecidableEq

/-- JS truthiness of a value. -/
def truthy : JSVal → Bool
  | .undefined => false
  | .null => false
  | .bool b => b
  | .num n => n != 0
  | .str s => s != ""
  | .arr _ => true
  | .obj _ => true

/-- Whether the JS typeof operator answers the word object: true for plain
objects, arrays and also null. -/
def isObjectType : JSVal → Bool
  | .null => true
  | .arr _ => true
  | .obj _ => true
  | _ => false

/-- First-match lookup in an object field list. -/
def lookupField : List (String × JSVal) → String → Option JSVal
  | [], _ => none
  | (k, v) :: rest, key => if k = key then some v else lookupField rest key

/-- Replace the value of the first field named key, or append the field. -/
def updateField : List (String × JSVal) → String → JSVal → List (String × JSVal)
  | [], key, v => [(key, v)]
  | (k, w) :: rest, key, v =>
      if k = key then (k, v) :: rest else (k, w) :: updateField rest key v

/-- Total property read: a missing field of an object reads as undefined, and
a property of a primitive or array (none of the codebase keys exist on those)
also reads as undefined. -/
def getFieldD : JSVal → String → JSVal
  | .obj fields, key => (lookupField fields key).getD .undefined
  | _, _ => .undefined

/-- Property read as the JS runtime performs it: reading a property of null or
undefined throws a TypeError, every other base value yields getFieldD. -/
def getFieldE : JSVal → String → Except JsErr JSVal
  | .undefined, _ => .error .typeError
  | .null, _ => .error .typeError
  | v, key => .ok (getFieldD v key)

/-- Property write on a plain object; writes on other values are not needed by
the embedded code paths and leave the value unchanged. -/
def setFieldJS : JSVal → String → JSVal → JSVal
  | .obj fields, key, v => .obj (updateField fields key v)
  | w, _, _ => w

/-- String coercion of a non-array JS value, exactly as the JS runtime
performs it; arrays are handled by jsToString below. -/
def jsToStringBase : JSVal → String
  | .undefined => "undefined"
  | .null => "null"
  | .bool true => "true"
  | .bool false => "false"
  | .num n => toString n
  | .str s => s
  | .obj _ => "[object Object]"
  | .arr _ => ""

/-- Rendering of one element inside an array join: null and undefined render
as the empty string there (unlike their direct string coercion). A nested
array is approximated by the empty string; no value the embedded code
stringifies ever nests arrays. -/
def jsJoinElem : JSVal → String
  | .null => ""
  | .undefined => ""
  | v => jsToStringBase v

/-- JS string coercion, used where the code concatenates a value into a URL.
An array joins its elements with commas, as Array toString does. -/
def jsToString : JSVal → String
  | .arr elems => String.intercalate "," (elems.map jsJoinElem)
  | v => jsToStringBase v

/-- The split of a string on the dot character, exactly as the JS
String.prototype.split with a one-character separator: the empty string
splits to a single empty segment. Worker on explicit characters. -/
def splitDotGo : List Char → List Char → List String
  | [], acc => [String.mk acc.reverse]
  | c :: rest, acc =>
      if c = '.' then String.mk acc.reverse :: splitDotGo rest []
      else splitDotGo rest (c :: acc)

/-- JS split on dot. -/
def splitDot (s : String) : List String := splitDotGo s.data []

/-- Value of a base64 alphabet character. -/
def b64CharVal (c : Char) : Option Nat :=
  let code := c.toNat
  if 65 ≤ code ∧ code ≤ 90 then some (code - 65)
  else if 97 ≤ code ∧ code ≤ 122 then some (code - 97 + 26)
  else if 48 ≤ code ∧ code ≤ 57 then some (code - 48 + 52)
  else if c = '+' then some 62
  else if c = '/' then some 63
  else none

/-- ASCII whitespace removed by the forgiving base64 decode of atob. -/
def isAsciiWhitespace (c : Char) : Bool :=
  c = ' ' ∨ c = '\t' ∨ c = '\n' ∨ c.toNat = 12 ∨ c = '\r'

/-- Strip up to two trailing padding characters when the length is a
multiple of four, per the forgiving base64 algorithm. -/
def stripBase64Padding (l : List Char) : List Char :=
  if l.length % 4 = 0 then
    match l.reverse with
    | '=' :: '=' :: rest => rest.reverse
    | '=' :: rest => rest.reverse
    | _ => l
  else l

/-- Assemble six-bit groups into bytes, discarding a trailing partial byte,
as the forgiving base64 decode does. The accumulator holds nbits pending
bits. -/
def b64BytesAux : List Nat → Nat → Nat → List Nat
  | [], _, _ => []
  | v :: rest, acc, nbits =>
      let acc2 := acc * 64 + v
      let nb := nbits + 6
      if 8 ≤ nb then
        acc2 / 2 ^ (nb - 8) :: b64BytesAux rest (acc2 % 2 ^ (nb - 8)) (nb - 8)
      else b64BytesAux rest acc2 nb

/-- The browser atob: forgiving base64 decode to a byte string (each byte one
character). Throws InvalidCharacterError on a bad length or alphabet. -/
def atobE (s : String) : Except JsErr String :=
  let cleaned := s.data.filter (fun c => !(isAsciiWhitespace c))
  let body := stripBase64Padding cleaned
  if body.length % 4 = 1 then .error .domError
  else
    match body.mapM b64CharVal with
    | some vals => .ok (String.mk ((b64BytesAux vals 0 0).map Char.ofNat))
    | none => .error .domError

/-- The UTF-8 bytes of one character. -/
def utf8BytesChar (c : Char) : List Nat :=
  let n := c.toNat
  if n < 128 then [n]
  else if n < 2048 then [192 + n / 64, 128 + n % 64]
  else if n < 65536 then [224 + n / 4096, 128 + (n / 64) % 64, 128 + n % 64]
  else [240 + n / 262144, 128 + (n / 4096) % 64, 128 + (n / 64) % 64, 128 + n % 64]

/-- The UTF-8 bytes of a string. -/
def utf8Bytes (s : String) : List Nat := (s.data.map utf8BytesChar).flatten

/-- The base64 alphabet character for a six-bit value. -/
def b64EncChar (n : Nat) : Char :=
  if n < 26 then Char.ofNat (65 + n)
  else if n < 52 then Char.ofNat (97 + n - 26)
  else if n < 62 then Char.ofNat (48 + n - 52)
  else if n = 62 then '+'
  else '/'

/-- Standard base64 encoding of a byte list, with padding. -/
def b64EncodeBytes : List Nat → List Char
  | b1 :: b2 :: b3 :: rest =>
      b64EncChar (b1 / 4) :: b64EncChar ((b1 % 4) * 16 + b2 / 16) ::
        b64EncChar ((b2 % 16) * 4 + b3 / 64) :: b64EncChar (b3 % 64) ::
        b64EncodeBytes rest
  | [b1, b2] =>
      [b64EncChar (b1 / 4), b64EncChar ((b1 % 4) * 16 + b2 / 16),
        b64EncChar ((b2 % 16) * 4), '=']
  | [b1] => [b64EncChar (b1 / 4), b64EncChar ((b1 % 4) * 16), '=', '=']
  | [] => []

/-- The b64EncodeUnicode helper of the utils modules: percent-encode to UTF-8
bytes and base64-encode them; net effect is base64 of the UTF-8 bytes. This
is what utils.base64.btoa performs. -/
def b64EncodeUnicode (s : String) : String := String.mk (b64EncodeBytes (utf8Bytes s))

/-- Value of one hexadecimal digit. -/
def hexVal (c : Char) : Option Nat :=
  if '0' ≤ c ∧ c ≤ '9' then some (c.toNat - 48)
  else if 'A' ≤ c ∧ c ≤ 'F' then some (c.toNat - 55)
  else if 'a' ≤ c ∧ c ≤ 'f' then some (c.toNat - 87)
  else none

/-- Uppercase hexadecimal digit of a value below 16. -/
def hexUpper (n : Nat) : Char :=
  if n < 10 then Char.ofNat (48 + n) else Char.ofNat (55 + n)

/-- Percent-escape of one byte. -/
def pctEncodeByte (b : Nat) : List Char := ['%', hexUpper (b / 16), hexUpper (b % 16)]

/-- Characters encodeURIComponent leaves unescaped. -/
def isUriUnreservedChar (c : Char) : Bool :=
  c.isAlpha ∨ c.isDigit ∨ c ∈ ['-', '_', '.', '!', '~', '*', Char.ofNat 39, '(', ')']

/-- The encodeURIComponent builtin. -/
def encodeURIComponentStr (s : String) : String :=
  String.mk ((s.data.map (fun c =>
    if isUriUnreservedChar c then [c]
    else ((utf8BytesChar c).map pctEncodeByte).flatten)).flatten)

/-- Collect the maximal leading run of percent escapes as bytes; none models
the URIError thrown on a malformed escape. -/
def takeEscapes : List Char → Option (List Nat × List Char)
  | '%' :: h1 :: h2 :: rest =>
      match hexVal h1, hexVal h2 with
      | some a, some b =>
          match takeEscapes rest with
          | some (bs, r) => some ((16 * a + b) :: bs, r)
          | none => none
      | _, _ => none
  | '%' :: _ => none
  | rest => some ([], rest)

/-- Decode a UTF-8 byte list, fuel-indexed by its length; none models the
URIError thrown on a malformed sequence. -/
def utf8DecodeFuel : Nat → List Nat → Option (List Char)
  | _, [] => some []
  | 0, _ :: _ => none
  | fuel + 1, b :: rest =>
      if b < 128 then (utf8DecodeFuel fuel rest).map (Char.ofNat b :: ·)
      else if b < 192 then none
      else if b < 224 then
        match rest with
        | b2 :: rest2 =>
            if 128 ≤ b2 ∧ b2 < 192 then
              let n := (b - 192) * 64 + (b2 - 128)
              if n < 128 then none
              else (utf8DecodeFuel fuel rest2).map (Char.ofNat n :: ·)
            else none
        | [] => none
      else if b < 240 then
        match rest with
        | b2 :: b3 :: rest3 =>
            if 128 ≤ b2 ∧ b2 < 192 ∧ 128 ≤ b3 ∧ b3 < 192 then
              let n := (b - 224) * 4096 + (b2 - 128) * 64 + (b3 - 128)
              if n < 2048 ∨ (55296 ≤ n ∧ n ≤ 57343) then none
              else (utf8DecodeFuel fuel rest3).map (Char.ofNat n :: ·)
            else none
        | _ => none
      else if b < 248 then
        match rest with
        | b2 :: b3 :: b4 :: rest4 =>
            if 128 ≤ b2 ∧ b2 < 192 ∧ 128 ≤ b3 ∧ b3 < 192 ∧ 128 ≤ b4 ∧ b4 < 192 then
              let n := (b - 240) * 262144 + (b2 - 128) * 4096 + (b3 - 128) * 64 + (b4 - 128)
              if n < 65536 ∨ 1114111 < n then none
              else (utf8DecodeFuel fuel rest4).map (Char.ofNat n :: ·)
            else none
        | _ => none
      else none

/-- Decode a UTF-8 byte list. -/
def utf8DecodeList (l : List Nat) : Option (List Char) := utf8DecodeFuel l.length l

/-- The decodeURIComponent builtin on characters, fuel-indexed; each percent
escape run is decoded as UTF-8, other characters pass through. -/
def decodeURIFuel : Nat → List Char → Option (List Char)
  | _, [] => some []
  | 0, _ :: _ => none
  | fuel + 1, '%' :: rest =>
      match takeEscapes ('%' :: rest) with
      | some (bytes, r) =>
          match utf8DecodeList bytes with
          | some cs => (decodeURIFuel fuel r).map (cs ++ ·)
          | none => none
      | none => none
  | fuel + 1, c :: rest => (decodeURIFuel fuel rest).map (c :: ·)

/-- The decodeURIComponent builtin; none models a thrown URIError. -/
def decodeURIComponentChars (l : List Char) : Option (List Char) :=
  decodeURIFuel l.length l

/-- JSON whitespace skipping. -/
def jsonSkipWs : List Char → List Char :=
  List.dropWhile (fun c => c = ' ' ∨ c = '\t' ∨ c = '\n' ∨ c = '\r')

/-- The opening curly bracket character. -/
def lcurly : Char := Char.ofNat 123

/-- The closing curly bracket character. -/
def rcurly : Char := Char.ofNat 125

/-- A simple JSON string escape; the unicode escape form is not modelled (no
embedded code path feeds one to the parser). -/
def jsonEscape (c : Char) : Option Char :=
  if c = '"' then some '"'
  else if c = '\\' then some '\\'
  else if c = '/' then some '/'
  else if c = 'b' then some (Char.ofNat 8)
  else if c = 'f' then some (Char.ofNat 12)
  else if c = 'n' then some '\n'
  else if c = 'r' then some '\r'
  else if c = 't' then some '\t'
  else none

/-- Parse the body of a JSON string after the opening quote, fuel-indexed;
yields the content and the rest after the closing quote. -/
def parseJsonStringBody : Nat → List Char → Option (List Char × List Char)
  | 0, _ => none
  | _ + 1, [] => none
  | _ + 1, '"' :: rest => some ([], rest)
  | fuel + 1, '\\' :: e :: rest =>
      match jsonEscape e with
      | some c => (parseJsonStringBody fuel rest).map (fun p => (c :: p.1, p.2))
      | none => none
  | _ + 1, ['\\'] => none
  | fuel + 1, c :: rest =>
      if c.toNat < 32 then none
      else (parseJsonStringBody fuel rest).map (fun p => (c :: p.1, p.2))

/-- Numeric value of a digit list. -/
def digitsToNat (l : List Char) : Nat :=
  l.foldl (fun acc c => acc * 10 + (c.toNat - 48)) 0

/-- Parse a JSON natural number at the head; leading zeros are rejected as in
JSON. -/
def parseJsonNat : List Char → Option (Nat × List Char)
  | '0' :: rest =>
      match rest with
      | c :: _ => if c.isDigit then none else some (0, rest)
      | [] => some (0, [])
  | c :: rest =>
      if c.isDigit then
        some (digitsToNat ((c :: rest).takeWhile Char.isDigit),
          (c :: rest).dropWhile Char.isDigit)
      else none
  | [] => none

/-- Parse a JSON number at the head. The model restricts JSON numbers to
integers: a fraction or exponent makes the surrounding parse fail rather
than produce a float, which no embedded code path relies on. -/
def parseJsonNumberAt : List Char → Option (JSVal × List Char)
  | '-' :: rest => (parseJsonNat rest).map (fun p => (.num (-(p.1 : Int)), p.2))
  | l => (parseJsonNat l).map (fun p => (.num (p.1 : Int), p.2))

mutual

/-- Parse one JSON value, fuel-indexed. -/
def parseJsonVal : Nat → List Char → Option (JSVal × List Char)
  | 0, _ => none
  | fuel + 1, input =>
      match jsonSkipWs input with
      | 'n' :: 'u' :: 'l' :: 'l' :: rest => some (.null, rest)
      | 't' :: 'r' :: 'u' :: 'e' :: rest => some (.bool true, rest)
      | 'f' :: 'a' :: 'l' :: 's' :: 'e' :: rest => some (.bool false, rest)
      | '"' :: rest =>
          (parseJsonStringBody (rest.length + 1) rest).map
            (fun p => (.str (String.mk p.1), p.2))
      | '[' :: rest =>
          match jsonSkipWs rest with
          | ']' :: r2 => some (.arr [], r2)
          | r2 => (parseJsonElems fuel r2).map (fun p => (.arr p.1, p.2))
      | c :: rest =>
          if c = lcurly then
            match jsonSkipWs rest with
            | c2 :: r2 =>
                if c2 = rcurly then some (.obj [], r2)
                else (parseJsonMembers fuel (c2 :: r2)).map (fun p => (.obj p.1, p.2))
            | [] => none
          else parseJsonNumberAt (c :: rest)
      | [] => none

/-- Parse the elements of a nonempty JSON array up to the closing bracket. -/
def parseJsonElems : Nat → List Char → Option (List JSVal × List Char)
  | 0, _ => none
  | fuel + 1, input =>
      match parseJsonVal fuel input with
      | some (v, rest) =>
          match jsonSkipWs rest with
          | ',' :: r2 => (parseJsonElems fuel r2).map (fun p => (v :: p.1, p.2))
          | ']' :: r2 => some ([v], r2)
          | _ => none
      | none => none

/-- Parse the members of a nonempty JSON object up to the closing bracket. -/
def parseJsonMembers : Nat → List Char → Option (List (String × JSVal) × List Char)
  | 0, _ => none
  | fuel + 1, input =>
      match jsonSkipWs input with
      | '"' :: rest =>
          match parseJsonStringBody (rest.length + 1) rest with
          | some (key, r1) =>
              match jsonSkipWs r1 with
              | ':' :: r2 =>
                  match parseJsonVal fuel r2 with
                  | some (v, r3) =>
                      match jsonSkipWs r3 with
                      | ',' :: r4 =>
                          (parseJsonMembers fuel r4).map
                            (fun p => ((String.mk key, v) :: p.1, p.2))
                      | c :: r4 =>
                          if c = rcurly then some ([(String.mk key, v)], r4) else none
                      | [] => none
                  | none => none
              | _ => none
          | none => none
      | _ => none

end

/-- The JSON.parse builtin on the modelled JSON fragment; an error models a
thrown SyntaxError. Duplicate object keys are kept in order (the codebase
never feeds duplicates). -/
def jsonParseE (s : String) : Except JsErr JSVal :=
  match parseJsonVal (s.length + 1) s.data with
  | some (v, rest) => if jsonSkipWs rest = [] then .ok v else .error .syntaxError
  | none => .error .syntaxError

/-- The result of utils.parseJwt: the JS false for a rejected input, or the
structure with the parsed header, parsed body and raw signature segment. -/
inductive JwtParsed where
  | notJwt
  | parsed (header : JSVal) (body : JSVal) (signature : String)

/-- utils.parseJwt from the utils module: reject a falsy input, split on dots
with limit three (extra segments are dropped by the limit, not counted),
reject when fewer than three segments result, else parse the first two
segments as base64 JSON. -/
def parseJwt (rawJwt : String) : Except JsErr JwtParsed :=
  if rawJwt = "" then .ok .notJwt
  else
    match (splitDot rawJwt).take 3 with
    | [s0, s1, s2] =>
        match atobE s0 with
        | .error e => .error e
        | .ok h0 =>
            match jsonParseE h0 with
            | .error e => .error e
            | .ok header =>
                match atobE s1 with
                | .error e => .error e
                | .ok b0 =>
                    match jsonParseE b0 with
                    | .error e => .error e
                    | .ok body => .ok (.parsed header body s2)
    | _ => .ok .notJwt

/-- The request executor, modelled by the only piece of its state the client
reads: the rotating bearer credential. -/
structure RequestExecutor where
  authToken : String

/-- Client.prototype.getSessionJwt: parse the current credential. -/
def getSessionJwt (ex : RequestExecutor) : Except JsErr JwtParsed :=
  parseJwt ex.authToken

/-- First-match lookup in the cookie jar. -/
def lookupStr : List (String × String) → String → Option String
  | [], _ => none
  | (k, v) :: rest, name => if k = name then some v else lookupStr rest name

/-- utils.getCookie at the jar contract granularity: the value of the named
cookie when it is present and nonempty (the source regex demands at least
one value character), else nothing. -/
def getCookie (jar : List (String × String)) (name : String) : Option String :=
  match lookupStr jar name with
  | some v => if v = "" then none else some v
  | none => none

/-- A cookie write: replace the named cookie or append it. -/
def updateCookie : List (String × String) → String → String → List (String × String)
  | [], name, v => [(name, v)]
  | (k, w) :: rest, name, v =>
      if k = name then (k, v) :: rest else (k, w) :: updateCookie rest name v

/-- Whether a character is matched by the dot of a JS regex: everything but
the line terminators. -/
def isRegexDot (c : Char) : Bool :=
  !(c = '\n' ∨ c = '\r' ∨ c.toNat = 8232 ∨ c.toNat = 8233)

/-- Whether a character list begins with a v, a digit and a slash, the tail
of the version pattern of the baseurl regex. -/
def startsVDS : List Char → Bool
  | 'v' :: d :: '/' :: _ => d.isDigit
  | _ => false

/-- The backtracking search of the anchored lazy regex that derives baseurl:
the group body grows one dot-matched character at a time until a slash
followed by the version pattern completes the match; the captured group is
the body plus that slash. The accumulator holds the reversed body. -/
def baseUrlScan : List Char → List Char → Option (List Char)
  | _, [] => none
  | acc, c :: rest =>
      if c = '/' ∧ acc ≠ [] ∧ startsVDS rest = true then some (acc.reverse ++ [c])
      else if isRegexDot c then baseUrlScan (c :: acc) rest
      else none

/-- The baseurl captured from an application href by the regex match on line
48 of the client; none models the match returning null, on which the
client construction throws when it reads the capture group. -/
def baseurlOf (appHref : String) : Option String :=
  (baseUrlScan [] appHref.data).map String.mk

/-- The index of the first slash that starts a version segment, that is the
first occurrence of slash, v, digit, slash. This is the specification-side
notion used to state what the claim says about baseurl. -/
def firstVOcc : List Char → Option Nat
  | [] => none
  | c :: rest =>
      if c = '/' ∧ startsVDS rest = true then some 0
      else (firstVOcc rest).map (· + 1)

/-- The trailing run of non-slash characters of a string, the capture of the
final path segment regex. -/
def trailingSeg (s : String) : List Char :=
  (s.data.reverse.takeWhile (fun c => c ≠ '/')).reverse

/-- The final path segment; an empty run means the regex match is null and
reading its first capture throws a TypeError. -/
def lastSegE (s : String) : Except JsErr String :=
  if trailingSeg s = [] then .error .typeError else .ok (String.mk (trailingSeg s))

/-- The value must be a string for a string method such as match to exist on
it; any other value makes the method call throw a TypeError. -/
def asStringE : JSVal → Except JsErr String
  | .str s => .ok s
  | _ => .error .typeError

/-- Array map as the JS runtime performs it: calling map on anything that is
not an array throws a TypeError, and the per-element callback may throw. -/
def jsMap (v : JSVal) (f : JSVal → Except JsErr JSVal) : Except JsErr JSVal :=
  match v with
  | .arr xs => do pure (.arr (← xs.mapM f))
  | _ => .error .typeError

/-- Array reduce with no initial value: an empty array or a non-array value
throws a TypeError, else the callback folds from the left starting at the
first element. -/
def jsReduceNI (v : JSVal) (f : JSVal → JSVal → JSVal) : Except JsErr JSVal :=
  match v with
  | .arr [] => .error .typeError
  | .arr (x :: xs) => .ok (xs.foldl f x)
  | _ => .error .typeError

/-- The first element of Object.keys, as a JS value: the first own key of an
object, the index zero of a nonempty array or string, undefined when there
are no keys; Object.keys of null or undefined throws. -/
def objectKeysFirst : JSVal → Except JsErr JSVal
  | .obj [] => .ok .undefined
  | .obj ((k, _) :: _) => .ok (.str k)
  | .arr [] => .ok .undefined
  | .arr (_ :: _) => .ok (.str "0")
  | .str s => if s = "" then .ok .undefined else .ok (.str "0")
  | .null => .error .typeError
  | .undefined => .error .typeError
  | _ => .ok .undefined

/-- Client.prototype.getPasswordResetToken, lines 176 to 201 of the client
file, with the appHref value the constructor stored: return sp_token when
truthy, else locate the application entry of the scope by the final path
segment of appHref and run the map and reduce chain of the source over it,
finishing with the first key of the reduced value. -/
def getPasswordResetToken (jwtPayload : JSVal) (appHrefV : JSVal) : Except JsErr JSVal := do
  let sp ← getFieldE jwtPayload "sp_token"
  if truthy sp then
    return sp
  else
    let hrefStr ← asStringE appHrefV
    let applicationId ← lastSegE hrefStr
    let scope ← getFieldE jwtPayload "scope"
    let appsMap ← getFieldE scope "application"
    let application ← getFieldE appsMap applicationId
    let m1 ← jsMap application (fun contents => getFieldE contents "passwordResetToken")
    let r1 ← jsReduceNI m1 (fun previous current => if truthy previous then previous else current)
    let m2 ← jsMap r1 (fun contents => .ok (if isObjectType contents then contents else .null))
    let r2 ← jsReduceNI m2 (fun previous current => if truthy previous then previous else current)
    if truthy r2 then objectKeysFirst r2 else return .null

/-- The derived, constructor-owned context of a client: the fields set on
lines 46 to 62 of the client file. -/
structure ClientCtx where
  appHref : String
  sptoken : JSVal
  baseurl : String
  idSiteParentResource : JSVal
  requireMfa : JSVal

/-- The synchronous derivation steps of the constructor after the claims are
decoded, in source order: read app_href, resolve the password reset token,
capture baseurl from the version regex (throwing when the match is null),
then pick the parent resource from ash when asnk is truthy. The organization
name key cookie side effect carries no derived state and is not recorded. -/
def mkClientCtx (payload : JSVal) : Except JsErr ClientCtx :=
  match getFieldE payload "app_href" with
  | .error e => .error e
  | .ok appHrefV =>
      match getPasswordResetToken payload appHrefV with
      | .error e => .error e
      | .ok sptoken =>
          match asStringE appHrefV with
          | .error e => .error e
          | .ok hrefStr =>
              match baseurlOf hrefStr with
              | none => .error .typeError
              | some bu =>
                  .ok { appHref := hrefStr
                        sptoken := sptoken
                        baseurl := bu
                        idSiteParentResource :=
                          if truthy (getFieldD payload "asnk") then getFieldD payload "ash"
                          else appHrefV
                        requireMfa :=
                          if truthy (getFieldD payload "require_mfa") then
                            getFieldD payload "require_mfa"
                          else .undefined }

/-- An HTTP request handed to the request executor. -/
structure HttpRequest where
  method : String
  url : String
  json : JSVal

/-- The early synchronous bootstrap stages of the constructor, lines 28 to
38: a falsy token fails with JWT_NOT_FOUND before any split, then a dot
segment count outside two to three fails with NOT_A_JWT. -/
def bootstrapTokenStage (jwt : String) : Option StormError :=
  if jwt = "" then some .JWT_NOT_FOUND
  else
    if (splitDot jwt).length < 2 ∨ 3 < (splitDot jwt).length then some .NOT_A_JWT
    else none

/-- The error object a transport error hands the handshake callback; only its
status is inspected. -/
structure ErrObj where
  status : Nat

/-- What the handshake completion callback reports. -/
inductive HandshakeResult where
  | stormErr (e : StormError)
  | rawErr (e : ErrObj)
  | ready (idSiteModel : JSVal) (customData : JSVal)

/-- The handshake response callback of the constructor, lines 72 to 95: a 401
becomes SESSION_EXPIRED, any other error passes through, an empty credential
after a clean response fails with NO_AUTH_TOKEN_HEADER, and only a clean
response with a credential and no caller-supplied token writes the session
cookie. The Bool records whether saveSessionToken ran. -/
def handshakeCallback (err : Option ErrObj) (application : JSVal)
    (authToken : String) (optsTokenProvided : Bool) : HandshakeResult × Bool :=
  match err with
  | some e => (if e.status = 401 then .stormErr .SESSION_EXPIRED else .rawErr e, false)
  | none =>
      if authToken = "" then (.stormErr .NO_AUTH_TOKEN_HEADER, false)
      else
        (.ready (getFieldD application "idSiteModel") (getFieldD application "customData"),
          !optsTokenProvided)

/-- The browser ambient state the token source reads and writes. -/
structure Browser where
  href : String
  cookies : List (String × String)

/-- The maximal run of characters before an ampersand, the greedy capture of
the jwt parameter regex. -/
def paramRun (l : List Char) : List Char := l.takeWhile (fun c => c ≠ '&')

/-- First match of the jwt parameter regex over the href, fuel-indexed: at
each position try the literal jwt= followed by a nonempty run of
non-ampersand characters, else advance one character. -/
def findJwtMatchFuel : Nat → List Char → Option (List Char)
  | 0, _ => none
  | _ + 1, [] => none
  | fuel + 1, 'j' :: 'w' :: 't' :: '=' :: rest =>
      if paramRun rest = [] then findJwtMatchFuel fuel ('w' :: 't' :: '=' :: rest)
      else some (paramRun rest)
  | fuel + 1, _ :: rest => findJwtMatchFuel fuel rest

/-- First match of the jwt parameter regex over the href. -/
def findJwtMatch (l : List Char) : Option (List Char) := findJwtMatchFuel l.length l

/-- Remove the first match of the question mark jwt parameter pattern from
the href, as the location replace on line 146 does; when no match exists the
href is returned unchanged. -/
def stripJwtQueryFuel : Nat → List Char → List Char
  | 0, l => l
  | _ + 1, [] => []
  | fuel + 1, '?' :: 'j' :: 'w' :: 't' :: '=' :: r =>
      if paramRun r = [] then '?' :: stripJwtQueryFuel fuel ('j' :: 'w' :: 't' :: '=' :: r)
      else r.dropWhile (fun c => c ≠ '&')
  | fuel + 1, c :: rest => c :: stripJwtQueryFuel fuel rest

/-- Remove the first question mark jwt parameter from the href. -/
def stripJwtQuery (l : List Char) : List Char := stripJwtQueryFuel l.length l

/-- Client.prototype.getJwtFromUrl, lines 142 to 154: prefer the jwt
parameter of the href, decoding it and stripping it from the location
without touching the cookie; else consume the session cookie, clearing it;
else answer the empty string. -/
def getJwtFromUrl (b : Browser) : Except JsErr (String × Browser) :=
  match findJwtMatch b.href.data with
  | some v =>
      match decodeURIComponentChars v with
      | some d => .ok (String.mk d, ⟨String.mk (stripJwtQuery b.href.data), b.cookies⟩)
      | none => .error .uriError
  | none =>
      match getCookie b.cookies "idSiteJwt" with
      | some cv => .ok (cv, ⟨b.href, updateCookie b.cookies "idSiteJwt" ""⟩)
      | none => .ok ("", b)

/-- Add the account store hint to the login payload when the credentials
carry a truthy accountStore, as lines 230 to 232 do; when the payload is the
credentials object itself this is a self assignment. -/
def withAccountStore (creds data : JSVal) : JSVal :=
  if truthy (getFieldD creds "accountStore") then
    setFieldJS data "accountStore" (getFieldD creds "accountStore")
  else data

/-- The synchronous payload construction of Client.prototype.login, lines
213 to 232: a non-object throws, a truthy providerData passes the
credentials through, else a truthy login builds the basic scheme payload
from the base64 of login, colon, password, else the call throws. An error
models a synchronous throw before any request reaches the executor. -/
def loginData (credentials : JSVal) : Except String JSVal :=
  let creds := if isObjectType credentials then credentials else .null
  if ¬ truthy creds then .error "must provide an object"
  else if truthy (getFieldD creds "providerData") then .ok (withAccountStore creds creds)
  else if truthy (getFieldD creds "login") then
    .ok (withAccountStore creds
      (.obj [("type", .str "basic"),
        ("value", .str (b64EncodeUnicode
          (jsToString (getFieldD creds "login") ++ ":" ++
            jsToString (getFieldD creds "password"))))]))
  else .error "unsupported credentials object"

/-- Client.prototype.login through the request construction, lines 234 to
247: the payload plus the optional redirect query string, posted to the
loginAttempts URL under appHref. An error is a synchronous throw and no
request is issued. -/
def loginRequest (credentials options : JSVal) (c : ClientCtx) : Except String HttpRequest :=
  match loginData credentials with
  | .error e => .error e
  | .ok data =>
      .ok { method := "POST"
            url := c.appHref ++ "/loginAttempts" ++
              (if truthy (getFieldD options "redirect") then
                "?redirect=" ++ encodeURIComponentStr (jsToString (getFieldD options "redirect"))
              else "")
            json := data }

/-- Client.prototype.verifyEmailToken, lines 297 to 311: a POST whose URL is
baseurl, then the literal path with the v1 segment, then the sptoken value
coerced to a string. -/
def verifyEmailTokenReq (c : ClientCtx) : HttpRequest :=
  { method := "POST"
    url := c.baseurl ++ "v1/accounts/emailVerificationTokens/" ++ jsToString c.sptoken
    json := .undefined }

/-- Client.prototype.sendPasswordResetEmail, lines 386 to 411: a string
argument is wrapped as an email body, an object argument is the body itself,
anything else throws; the POST goes to the passwordResetTokens path under
appHref. -/
def sendPasswordResetEmailReq (c : ClientCtx) (emailOrObject : JSVal) :
    Except String HttpRequest :=
  match emailOrObject with
  | .str e =>
      .ok { method := "POST"
            url := c.appHref ++ "/passwordResetTokens"
            json := .obj [("email", .str e)] }
  | v =>
      if isObjectType v then
        .ok { method := "POST"
              url := c.appHref ++ "/passwordResetTokens"
              json := v }
      else .error "sendPasswordResetEmail must be called with an email or an options object"

/-- Clearing a cookie by writing the empty value makes a later getCookie of
that name answer nothing, since the read demands a nonempty value. -/
theorem getCookie_update_empty (jar : List (String × String)) (name : String) :
    getCookie (updateCookie jar name "") name = none := by
  induction jar with
  | nil => simp [updateCookie, getCookie, lookupStr]
  | cons kv rest ih =>
      obtain ⟨k, w⟩ := kv
      by_cases hk : k = name
      · subst hk
        simp [updateCookie, getCookie, lookupStr]
      · simp only [updateCookie, if_neg hk]
        simpa [getCookie, lookupStr, hk] using ih

/-- Writing back the value a field already holds leaves the field list
unchanged. -/
theorem updateField_self (fields : List (String × JSVal)) (key : String) (v : JSVal)
    (h : lookupField fields key = some v) : updateField fields key v = fields := by
  induction fields with
  | nil => simp [lookupField] at h
  | cons kv rest ih =>
      obtain ⟨k, w⟩ := kv
      by_cases hk : k = key
      · subst hk
        unfold lookupField at h
        rw [if_pos rfl] at h
        unfold updateField
        rw [if_pos rfl, Option.some.inj h]
      · unfold lookupField at h
        rw [if_neg hk] at h
        unfold updateField
        rw [if_neg hk, ih h]

/-- The lazy anchored scan of the baseurl regex succeeds exactly at the first
version segment occurrence, provided that occurrence leaves a nonempty group
body and every body character is matched by the regex dot; the capture is
the input up to and including the slash that starts the occurrence. -/
theorem baseUrlScan_first : ∀ (l acc : List Char) (j : Nat),
    firstVOcc l = some j → (acc = [] → 1 ≤ j) →
    (∀ c ∈ l.take j, isRegexDot c = true) →
    baseUrlScan acc l = some (acc.reverse ++ l.take (j + 1)) := by
  intro l
  induction l with
  | nil => intro acc j h _ _; simp [firstVOcc] at h
  | cons c rest ih =>
      intro acc j hocc hacc hdot
      by_cases hhead : c = '/' ∧ startsVDS rest = true
      · have hj : j = 0 := by
          unfold firstVOcc at hocc
          rw [if_pos hhead] at hocc
          exact (Option.some.inj hocc).symm
        subst hj
        have haccne : acc ≠ [] := fun h => Nat.not_succ_le_zero 0 (hacc h)
        unfold baseUrlScan
        rw [if_pos ⟨hhead.1, haccne, hhead.2⟩]
        simp
      · unfold firstVOcc at hocc
        rw [if_neg hhead] at hocc
        obtain ⟨j2, hrest, hj⟩ : ∃ j2, firstVOcc rest = some j2 ∧ j = j2 + 1 := by
          cases h : firstVOcc rest with
          | none => rw [h] at hocc; simp at hocc
          | some j2 => rw [h] at hocc; simp at hocc; exact ⟨j2, rfl, hocc.symm⟩
        subst hj
        have hcdot : isRegexDot c = true := hdot c (by simp)
        have hnotdone : ¬ (c = '/' ∧ acc ≠ [] ∧ startsVDS rest = true) := by
          intro h
          exact hhead ⟨h.1, h.2.2⟩
        unfold baseUrlScan
        rw [if_neg hnotdone, if_pos hcdot]
        rw [ih (c :: acc) j2 hrest (by simp)
          (fun x hx => hdot x (by simp [List.take_succ_cons]; exact Or.inr hx))]
        simp

/-- A string whose dot split has fewer than three segments is rejected by
parseJwt with the JS false result. -/
theorem parseJwt_short (s : String) (h : (splitDot s).length < 3) :
    parseJwt s = .ok .notJwt := by
  by_cases hs : s = ""
  · subst hs; rfl
  · unfold parseJwt
    rw [if_neg hs, List.take_of_length_le (by omega)]
    rcases hl : splitDot s with _ | ⟨a, _ | ⟨b, _ | ⟨c2, t⟩⟩⟩
    · rfl
    · rfl
    · rfl
    · rw [hl] at h; simp at h; omega

/-- The payload the claims of claim C1 describe: no sp_token, and the scope
holds for application app1 a one-entry array whose entry carries a
passwordResetToken object with the single key slug123. -/
def c1Claims : JSVal :=
  .obj [("scope", .obj [("application", .obj [("app1",
      .arr [ .obj [("passwordResetToken", .obj [("slug123", .obj [])])] ])])])]

/-- Claim C1: the claim and the source comments say this shape resolves to
slug123, but the second map of the chain runs on the plain object produced
by the first reduce, which is not an array, so the resolution throws a
TypeError instead of returning the slug. -/
theorem getPasswordResetToken_throws_on_documented_shape :
    getPasswordResetToken c1Claims (.str "https://x/v1/applications/app1")
      = .error .typeError := rfl

/-- Claim C2: a handshake response without error that leaves the credential
empty reports NO_AUTH_TOKEN_HEADER and performs no session cookie write,
whatever the response body and whether a token was supplied at
construction. -/
theorem handshake_empty_credential_no_auth_token_header (application : JSVal)
    (optsTokenProvided : Bool) :
    handshakeCallback none application "" optsTokenProvided
      = (.stormErr .NO_AUTH_TOKEN_HEADER, false) := rfl

/-- Claim C3: when the href carries a jwt parameter the token source answers
its decoded value and leaves the cookie jar untouched even when the session
cookie is present; with no parameter but a present session cookie it answers
the cookie value and clears that cookie, so a later read of it answers
nothing; with neither it answers the empty string and changes nothing. -/
theorem getJwtFromUrl_precedence (b : Browser) :
    (∀ v d, findJwtMatch b.href.data = some v → decodeURIComponentChars v = some d →
      getJwtFromUrl b = .ok (String.mk d, ⟨String.mk (stripJwtQuery b.href.data), b.cookies⟩)) ∧
    (findJwtMatch b.href.data = none → ∀ cv, getCookie b.cookies "idSiteJwt" = some cv →
      getJwtFromUrl b = .ok (cv, ⟨b.href, updateCookie b.cookies "idSiteJwt" ""⟩) ∧
      getCookie (updateCookie b.cookies "idSiteJwt" "") "idSiteJwt" = none) ∧
    (findJwtMatch b.href.data = none → getCookie b.cookies "idSiteJwt" = none →
      getJwtFromUrl b = .ok ("", b)) := by
  refine ⟨?_, ?_, ?_⟩
  · intro v d hv hd
    simp only [getJwtFromUrl, hv, hd]
  · intro hv cv hc
    constructor
    · simp only [getJwtFromUrl, hv, hc]
    · exact getCookie_update_empty b.cookies "idSiteJwt"
  · intro hv hc
    simp only [getJwtFromUrl, hv, hc]

/-- Witness for claim C3 at three concrete browser states, one per branch. -/
theorem getJwtFromUrl_precedence_witness :
    getJwtFromUrl ⟨"https://ex.com/?jwt=abc%21def&x=1", [("idSiteJwt", "cookietok")]⟩
      = .ok ("abc!def", ⟨"https://ex.com/&x=1", [("idSiteJwt", "cookietok")]⟩) ∧
    (getJwtFromUrl ⟨"https://ex.com/", [("idSiteJwt", "ctok")]⟩
      = .ok ("ctok", ⟨"https://ex.com/", [("idSiteJwt", "")]⟩) ∧
     getCookie [("idSiteJwt", "")] "idSiteJwt" = none) ∧
    getJwtFromUrl ⟨"https://ex.com/", []⟩ = .ok ("", ⟨"https://ex.com/", []⟩) := by
  refine ⟨?_, ?_, ?_⟩
  · exact (getJwtFromUrl_precedence
      ⟨"https://ex.com/?jwt=abc%21def&x=1", [("idSiteJwt", "cookietok")]⟩).1
      "abc%21def".data "abc!def".data rfl rfl
  · exact (getJwtFromUrl_precedence ⟨"https://ex.com/", [("idSiteJwt", "ctok")]⟩).2.1
      rfl "ctok" rfl
  · exact (getJwtFromUrl_precedence ⟨"https://ex.com/", []⟩).2.2 rfl rfl

/-- The claims payload of claim C4: a direct sp_token plus a truthy asnk, so
the parent resource is the ash value instead of appHref. -/
def c4Payload : JSVal :=
  .obj [("app_href", .str "https://x/v1/applications/app1"),
        ("sp_token", .str "tok123"),
        ("asnk", .bool true),
        ("ash", .str "https://y/v1/organizations/org1")]

/-- The client context derived from the C4 payload. -/
def c4Ctx : ClientCtx :=
  ⟨"https://x/v1/applications/app1", .str "tok123", "https://x/",
    .str "https://y/v1/organizations/org1", .undefined⟩

/-- Counterexample to claim C4: with a truthy asnk the parent resource is the
ash value, yet the password reset email POST still goes to the
passwordResetTokens path under appHref, not under the parent resource. -/
theorem sendPasswordResetEmail_uses_appHref_not_parent :
    (mkClientCtx c4Payload).map (fun c =>
        (jsToString c.idSiteParentResource,
         (sendPasswordResetEmailReq c (.str "user@example.com")).map HttpRequest.url))
      = .ok ("https://y/v1/organizations/org1",
             .ok "https://x/v1/applications/app1/passwordResetTokens") ∧
    "https://x/v1/applications/app1/passwordResetTokens" ≠
      "https://y/v1/organizations/org1" ++ "/passwordResetTokens" :=
  ⟨rfl, by decide⟩

/-- Claim C4 as amended: sendPasswordResetEmail always posts to the
passwordResetTokens path under appHref, also for a client whose claims carry
a truthy asnk and whose parent resource is therefore the ash value. -/
theorem sendPasswordResetEmail_posts_to_appHref (p : JSVal) (c : ClientCtx) (e : JSVal)
    (req : HttpRequest) (_hc : mkClientCtx p = .ok c)
    (_hasnk : truthy (getFieldD p "asnk") = true)
    (hr : sendPasswordResetEmailReq c e = .ok req) :
    req.url = c.appHref ++ "/passwordResetTokens" := by
  cases e with
  | str s =>
      have h2 := Except.ok.inj hr
      subst h2
      rfl
  | null =>
      have h2 := Except.ok.inj hr
      subst h2
      rfl
  | arr xs =>
      have h2 := Except.ok.inj hr
      subst h2
      rfl
  | obj fs =>
      have h2 := Except.ok.inj hr
      subst h2
      rfl
  | undefined => simp [sendPasswordResetEmailReq, isObjectType] at hr
  | bool b => simp [sendPasswordResetEmailReq, isObjectType] at hr
  | num n => simp [sendPasswordResetEmailReq, isObjectType] at hr

/-- Witness for the amended claim C4 at the concrete C4 payload. -/
theorem sendPasswordResetEmail_posts_to_appHref_witness :
    HttpRequest.url ⟨"POST", "https://x/v1/applications/app1/passwordResetTokens",
        .obj [("email", .str "user@example.com")]⟩
      = ClientCtx.appHref c4Ctx ++ "/passwordResetTokens" :=
  sendPasswordResetEmail_posts_to_appHref c4Payload c4Ctx (.str "user@example.com")
    ⟨"POST", "https://x/v1/applications/app1/passwordResetTokens",
      .obj [("email", .str "user@example.com")]⟩
    rfl rfl rfl

/-- Counterexample to claim C5: the empty token string splits to one segment,
outside two to three, yet bootstrap reports JWT_NOT_FOUND, not NOT_A_JWT. -/
theorem empty_token_gives_jwt_not_found :
    (splitDot "").length = 1 ∧ bootstrapTokenStage "" = some .JWT_NOT_FOUND ∧
    bootstrapTokenStage "" ≠ some .NOT_A_JWT :=
  ⟨rfl, rfl, by decide⟩

/-- Claim C5 as amended: every nonempty token string whose dot segment count
lies outside two to three makes bootstrap fail with NOT_A_JWT; the empty
token instead fails earlier with JWT_NOT_FOUND. -/
theorem nonempty_bad_segment_count_not_a_jwt (jwt : String) (hne : jwt ≠ "")
    (hseg : (splitDot jwt).length < 2 ∨ 3 < (splitDot jwt).length) :
    bootstrapTokenStage jwt = some .NOT_A_JWT := by
  unfold bootstrapTokenStage
  rw [if_neg hne, if_pos hseg]

/-- Witness for the amended claim C5 at a four-segment token. -/
theorem nonempty_bad_segment_count_not_a_jwt_witness :
    bootstrapTokenStage "a.b.c.d" = some .NOT_A_JWT :=
  nonempty_bad_segment_count_not_a_jwt "a.b.c.d" (by decide) (Or.inr (by decide))

/-- Counterexample to claim C6: an appHref whose version segment sits at the
very start contains the pattern, but the group body of the regex must be
nonempty, so the match is null and no baseurl is produced, while the claim
asks for the one-character answer of a single slash. -/
theorem baseurl_none_when_version_at_start :
    firstVOcc "/v1/x".data = some 0 ∧ baseurlOf "/v1/x" = none ∧
    baseurlOf "/v1/x" ≠ some "/" :=
  ⟨rfl, rfl, by decide⟩

/-- Claim C6 as amended: whenever the first version segment occurrence of the
appHref starts at a position of at least one and every character before it
is matched by the regex dot, baseurl is the portion of the appHref up to and
including the slash that starts that occurrence. -/
theorem baseurl_before_first_version_segment (s : String) (j : Nat)
    (hocc : firstVOcc s.data = some j) (hj : 1 ≤ j)
    (hdot : ∀ c ∈ s.data.take j, isRegexDot c = true) :
    baseurlOf s = some (String.mk (s.data.take (j + 1))) := by
  unfold baseurlOf
  rw [baseUrlScan_first s.data [] j hocc (fun _ => hj) hdot]
  simp

/-- Witness for the amended claim C6 at the concrete appHref of the claim. -/
theorem baseurl_before_first_version_segment_witness :
    baseurlOf "https://x/v1/applications/app1"
      = some (String.mk ("https://x/v1/applications/app1".data.take 10)) ∧
    String.mk ("https://x/v1/applications/app1".data.take 10) = "https://x/" :=
  ⟨baseurl_before_first_version_segment "https://x/v1/applications/app1" 9 rfl
    (by decide) (by decide), rfl⟩

/-- The claims payload of claims C7: a direct sp_token and no asnk. -/
def c7Payload : JSVal :=
  .obj [("app_href", .str "https://x/v1/applications/app1"), ("sp_token", .str "abc")]

/-- The client context derived from the C7 payload. -/
def c7Ctx : ClientCtx :=
  ⟨"https://x/v1/applications/app1", .str "abc", "https://x/",
    .str "https://x/v1/applications/app1", .undefined⟩

/-- Counterexample to claim C7: the email verification POST URL contains the
literal v1 path segment right after baseurl, so it differs from the URL the
claim describes, baseurl directly followed by the accounts path. -/
theorem verifyEmailToken_url_has_v1_segment :
    (mkClientCtx c7Payload).map (fun c => (verifyEmailTokenReq c).url)
      = .ok "https://x/v1/accounts/emailVerificationTokens/abc" ∧
    "https://x/v1/accounts/emailVerificationTokens/abc" ≠
      "https://x/" ++ "/accounts/emailVerificationTokens/" ++ "abc" :=
  ⟨rfl, by decide⟩

/-- Claim C7 as amended: for every constructed client the email verification
POST URL is baseurl, then the literal path v1/accounts/emailVerificationTokens/
with the version segment, then the token; and baseurl is the value the
version regex derives from the appHref of that client. -/
theorem verifyEmailToken_url_shape (p : JSVal) (c : ClientCtx)
    (hc : mkClientCtx p = .ok c) :
    (verifyEmailTokenReq c).url
      = c.baseurl ++ "v1/accounts/emailVerificationTokens/" ++ jsToString c.sptoken ∧
    baseurlOf c.appHref = some c.baseurl := by
  refine ⟨rfl, ?_⟩
  unfold mkClientCtx at hc
  repeat' split at hc
  all_goals cases hc
  all_goals assumption

/-- Witness for the amended claim C7 at the concrete C7 payload. -/
theorem verifyEmailToken_url_shape_witness :
    (verifyEmailTokenReq c7Ctx).url
      = c7Ctx.baseurl ++ "v1/accounts/emailVerificationTokens/" ++ jsToString c7Ctx.sptoken ∧
    baseurlOf c7Ctx.appHref = some c7Ctx.baseurl :=
  verifyEmailToken_url_shape c7Payload c7Ctx rfl

/-- Claim C8: calling login with an object that carries neither a login field
nor a providerData field throws synchronously; the error result carries the
thrown message and no request value is ever produced for the executor. -/
theorem login_without_identifiers_throws (fields : List (String × JSVal))
    (options : JSVal) (c : ClientCtx)
    (hpd : lookupField fields "providerData" = none)
    (hlg : lookupField fields "login" = none) :
    loginRequest (.obj fields) options c = .error "unsupported credentials object" := by
  simp [loginRequest, loginData, getFieldD, hpd, hlg, isObjectType, truthy]

/-- Witness for claim C8 at the empty credentials object. -/
theorem login_without_identifiers_throws_witness :
    loginRequest (.obj []) .undefined c4Ctx = .error "unsupported credentials object" :=
  login_without_identifiers_throws [] .undefined c4Ctx rfl rfl

/-- Counterexample to claim C9: a four-segment token is not rejected, because
the split carries the limit three and drops the extra segment; the first two
segments parse and a structure comes back, not the JS false. -/
theorem parseJwt_four_segments_parses :
    (splitDot "MA.MA.c.d").length = 4 ∧
    parseJwt "MA.MA.c.d" = .ok (.parsed (.num 0) (.num 0) "c") :=
  ⟨rfl, rfl⟩

/-- Claim C9 as amended: parseJwt answers the JS false exactly for a falsy
input or one with fewer than three dot segments; with three or more segments
it attempts the parse (extra segments beyond the third are truncated by the
split limit and cause no rejection). Consequently a two-segment credential
makes getSessionJwt answer false even though the bootstrap segment check
accepts two-segment tokens. -/
theorem parseJwt_segment_rules (s : String) :
    (s = "" → parseJwt s = .ok .notJwt) ∧
    ((splitDot s).length < 3 → parseJwt s = .ok .notJwt) ∧
    ((splitDot s).length = 2 →
      getSessionJwt ⟨s⟩ = .ok .notJwt ∧ bootstrapTokenStage s = none) := by
  refine ⟨fun h => by subst h; rfl, parseJwt_short s, fun h => ⟨?_, ?_⟩⟩
  · show parseJwt s = .ok .notJwt
    exact parseJwt_short s (by omega)
  · have hs : s ≠ "" := fun he => absurd (he ▸ h) (by decide)
    unfold bootstrapTokenStage
    rw [if_neg hs, if_neg (by omega)]

/-- Witness for the amended claim C9 at the empty token and a two-segment
token. -/
theorem parseJwt_segment_rules_witness :
    parseJwt "" = .ok .notJwt ∧ parseJwt "a.b" = .ok .notJwt ∧
    getSessionJwt ⟨"a.b"⟩ = .ok .notJwt ∧ bootstrapTokenStage "a.b" = none :=
  ⟨(parseJwt_segment_rules "").1 rfl,
   (parseJwt_segment_rules "a.b").2.1 (by decide),
   ((parseJwt_segment_rules "a.b").2.2 (by decide)).1,
   ((parseJwt_segment_rules "a.b").2.2 (by decide)).2⟩

/-- Counterexample to claim C10: credentials that carry the providerData
field with a falsy value and a login field still get the basic scheme
payload built, so the encoding is not built only when providerData is
absent. -/
theorem login_basic_built_with_present_providerData :
    lookupField [("providerData", JSVal.null), ("login", JSVal.str "u"),
        ("password", JSVal.str "p")] "providerData" = some .null ∧
    loginData (.obj [("providerData", .null), ("login", .str "u"), ("password", .str "p")])
      = .ok (.obj [("type", .str "basic"), ("value", .str "dTpw")]) ∧
    "dTpw" = b64EncodeUnicode ("u" ++ ":" ++ "p") :=
  ⟨rfl, rfl, rfl⟩

/-- Claim C10 as amended: for credentials with a truthy providerData field
and a login field the request payload is the credentials object itself,
unchanged; the basic scheme encoding is built only when providerData is
falsy, which includes present but null, not only when it is absent. -/
theorem login_providerData_precedence (fields : List (String × JSVal))
    (options : JSVal) (c : ClientCtx) (pd : JSVal)
    (hpd : lookupField fields "providerData" = some pd) (htr : truthy pd = true)
    (_hlg : (lookupField fields "login").isSome = true) :
    ∃ req, loginRequest (.obj fields) options c = .ok req ∧ req.json = .obj fields := by
  have hget : ∀ key, getFieldD (JSVal.obj fields) key
      = (lookupField fields key).getD JSVal.undefined := fun _ => rfl
  have hwa : withAccountStore (.obj fields) (.obj fields) = .obj fields := by
    unfold withAccountStore
    by_cases hacc : truthy (getFieldD (.obj fields) "accountStore") = true
    · rw [if_pos hacc]
      cases hl : lookupField fields "accountStore" with
      | none =>
          exfalso
          rw [hget "accountStore", hl] at hacc
          exact absurd hacc (by decide)
      | some w =>
          rw [hget "accountStore", hl, Option.getD_some]
          have hset : setFieldJS (JSVal.obj fields) "accountStore" w
              = JSVal.obj (updateField fields "accountStore" w) := rfl
          rw [hset, updateField_self fields _ w hl]
    · rw [if_neg hacc]
  have hdata : loginData (.obj fields) = .ok (.obj fields) := by
    have h0 : loginData (.obj fields)
        = if ¬ truthy (JSVal.obj fields) = true then .error "must provide an object"
          else if truthy (getFieldD (JSVal.obj fields) "providerData") = true then
            .ok (withAccountStore (JSVal.obj fields) (JSVal.obj fields))
          else if truthy (getFieldD (JSVal.obj fields) "login") = true then
            .ok (withAccountStore (JSVal.obj fields) (.obj [("type", .str "basic"),
              ("value", .str (b64EncodeUnicode (jsToString (getFieldD (JSVal.obj fields) "login")
                ++ ":" ++ jsToString (getFieldD (JSVal.obj fields) "password"))))]))
          else .error "unsupported credentials object" := rfl
    have h1 : getFieldD (JSVal.obj fields) "providerData" = pd := by
      rw [hget, hpd]
      rfl
    rw [h0, if_neg (fun h => h rfl), h1, if_pos htr, hwa]
  have hfin : loginRequest (.obj fields) options c
      = match loginData (.obj fields) with
        | .error e => .error e
        | .ok data =>
            .ok { method := "POST"
                  url := c.appHref ++ "/loginAttempts" ++
                    (if truthy (getFieldD options "redirect") then
                      "?redirect=" ++
                        encodeURIComponentStr (jsToString (getFieldD options "redirect"))
                    else "")
                  json := data } := rfl
  rw [hfin, hdata]
  exact ⟨_, rfl, rfl⟩

/-- The credentials of the C10 witness: truthy providerData plus login and an
account store hint. -/
def c10Creds : JSVal :=
  .obj [("providerData", .obj [("providerId", .str "google")]),
        ("login", .str "u"), ("accountStore", .str "as1")]

/-- Witness for the amended claim C10 at concrete federated credentials. -/
theorem login_providerData_precedence_witness :
    ∃ req, loginRequest c10Creds .undefined c4Ctx = .ok req ∧ req.json = c10Creds :=
  login_providerData_precedence
    [("providerData", .obj [("providerId", .str "google")]),
      ("login", .str "u"), ("accountStore", .str "as1")]
    .undefined c4Ctx (.obj [("providerId", .str "google")]) rfl rfl rfl

/-- Witness for claim C2 at a concrete response body and construction flag. -/
theorem handshake_empty_credential_no_auth_token_header_witness :
    handshakeCallback none (.obj [("idSiteModel", .obj [])]) "" false
      = (.stormErr .NO_AUTH_TOKEN_HEADER, false) :=
  handshake_empty_credential_no_auth_token_header (.obj [("idSiteModel", .obj [])]) false
